import Mathlib

/-!
Verification of the channel monitoring engine of the discord-to-wechat
repository.  The definitions below are a shallow embedding of
`src/services/listener/discord_parser.py` and
`src/services/listener/discord_listener.py` (the legacy copy
`src/discord_listener.py` implements the same selection and extraction
logic; where the two copies differ it is noted at the definition).

A DOM message node is modelled as a record of exactly the pieces of the
node that the Python code reads through the Selenium driver:
`get_attribute` results are `Option String` (absent attribute = `none`),
`find_element` results are `Option` fields, `find_elements` results are
lists in document order.
-/

/-- A message DOM node (`li[id^="chat-messages-"]`) as seen by the parser.
Each field is the result of one Selenium query made by the code. -/
structure DomNode where
  /-- `get_attribute('id')`; `none` models an absent identifier. -/
  idAttr : Option String
  /-- text of `h3[class*="header"] span[class*="username"]`;
  `none` models `NoSuchElementException`. -/
  headerUsername : Option String
  /-- `get_attribute('aria-label')`. -/
  ariaLabel : Option String
  /-- header-username text of each preceding sibling message node, in
  document order (oldest first); `none` = that sibling has no header. -/
  prevSiblings : List (Option String)
  /-- texts of the `div[class*="messageContent"]` elements, in order. -/
  contentTexts : List String
  /-- texts of the `div[class*="markup"]` elements, in order. -/
  markupTexts : List String
  /-- `datetime` attribute of the `time` element, when present. -/
  timeDatetime : Option String
  /-- `href` of each `a[class*="imageWrapper"], a[class*="attachment"]`. -/
  attachmentHrefs : List (Option String)
  /-- `href` of every `a[href]` element (CDN fallback scan). -/
  allLinkHrefs : List (Option String)
  /-- `src` of every `img[src]` element (CDN fallback scan). -/
  allImgSrcs : List (Option String)
deriving Repr, DecidableEq

/-- The `DiscordMessage` record of `src/core/models.py` (a plain dataclass:
no runtime validation, so `id` may be the null value).  The timestamp is
kept as the raw `datetime` attribute; `none` stands for the
`datetime.now()` substitution. -/
structure DiscordMessage where
  id : Option String
  username : String
  content : String
  timestamp : Option String
  channel_url : String
  attachments : List String
  channel_name : Option String
deriving Repr, DecidableEq

/-- "未知用户" — the literal unknown-author placeholder of the source. -/
def unknownUser : String := "未知用户"

/-- "[无法获取消息内容]" — the literal content-unavailable placeholder. -/
def contentUnavailable : String := "[无法获取消息内容]"

/-- Whether the character list `needle` is an initial segment of `hay`. -/
def charsStartWith : List Char → List Char → Bool
  | _, [] => true
  | [], _ :: _ => false
  | h :: hs, n :: ns => h = n && charsStartWith hs ns

/-- Whether `needle` occurs contiguously inside `hay`. -/
def charsContain : List Char → List Char → Bool
  | [], needle => charsStartWith [] needle
  | h :: t, needle => charsStartWith (h :: t) needle || charsContain t needle

/-- Python's substring test `needle in hay`. -/
def strContains (hay needle : String) : Bool :=
  charsContain hay.toList needle.toList

/-- Python's `str.isspace` characters relevant to `.strip()`. -/
def pyIsSpace (c : Char) : Bool :=
  c = ' ' || c = '\t' || c = '\n' || c = '\x0d' || c = '\x0b' || c = '\x0c'

/-- Python's `str.strip()` (leading and trailing whitespace removed),
modelled at character level so it evaluates by kernel reduction. -/
def pyStrip (s : String) : String :=
  String.mk (((s.toList.dropWhile pyIsSpace).reverse.dropWhile
    pyIsSpace).reverse)

/-- Python's `str.lower()` restricted to ASCII (every URL constant the
code compares against is ASCII). -/
def pyLower (s : String) : String := String.mk (s.toList.map Char.toLower)

/-- Python's `str.endswith(suffixStr)`. -/
def pyEndsWith (s suffixStr : String) : Bool :=
  charsStartWith s.toList.reverse suffixStr.toList.reverse

/-- `DiscordParser._trace_back_username`: walk the preceding sibling
message nodes, nearest first, over a lookback window of 8
(`prev_items[-8:]` reversed), returning the first non-empty header
username text found. -/
def trace_back_username (prevSibs : List (Option String)) : Option String :=
  let window := prevSibs.drop (prevSibs.length - 8)
  window.reverse.findSome? (fun o =>
    match o with
    | some t => if t ≠ "" then some t else none
    | none => none)

/-- `aria_label.split(',')[0].strip()` — the leading segment of an
accessibility label (`split(',')[0]` is the prefix up to the first
comma). -/
def ariaLeading (s : String) : String :=
  pyStrip (String.mk (s.toList.takeWhile (fun c => c ≠ ',')))

/-- `DiscordParser._extract_username_from_aria`: parse the author from the
`aria-label` attribute; the label must be non-empty and its leading
segment non-blank. -/
def extract_username_from_aria (ariaLabel : Option String) : Option String :=
  match ariaLabel with
  | none => none
  | some s =>
    if s = "" then none
    else if ariaLeading s = "" then none
    else some (ariaLeading s)

/-- `DiscordParser._extract_username`: the header username text when the
header element exists (returned as-is, even when empty); otherwise the
sibling lookback, then the aria-label fallback, then the literal
placeholder (`a or b or "未知用户"`; both fallbacks never yield `""`). -/
def extract_username (node : DomNode) : String :=
  match node.headerUsername with
  | some t => t
  | none =>
    match trace_back_username node.prevSiblings with
    | some u => u
    | none =>
      match extract_username_from_aria node.ariaLabel with
      | some a => a
      | none => unknownUser

/-- `DiscordParser._extract_content`: the text of the last
`messageContent` element, else the literal unavailable placeholder. -/
def extract_content (node : DomNode) : String :=
  match node.contentTexts.getLast? with
  | some t => t
  | none => contentUnavailable

/-- `DiscordParser._extract_timestamp`: the `datetime` attribute when
present and non-empty; `none` models the `datetime.now()` fallback
(ISO-parse success of a non-empty attribute is abstracted; no claim
touches the timestamp value). -/
def extract_timestamp (node : DomNode) : Option String :=
  match node.timeDatetime with
  | some s => if s = "" then none else some s
  | none => none

/-- Hosts recognised by the CDN fallback scan. -/
def cdn_hosts : List String := ["cdn.discordapp.com", "media.discordapp.net"]

/-- Media extensions recognised by the CDN fallback scan. -/
def media_exts : List String :=
  [".png", ".jpg", ".jpeg", ".gif", ".webp", ".mp4", ".mov", ".webm"]

/-- `DiscordParser._extract_cdn_links`: collect `a[href]` URLs pointing at
a known CDN host with an attachments path or media extension; if none,
collect `img[src]` URLs on a CDN host with an attachments path. -/
def extract_cdn_links (node : DomNode) : List String :=
  let links := node.allLinkHrefs.foldl (fun acc o =>
    let href := pyStrip (o.getD "")
    if href = "" then acc
    else
      let lower := pyLower href
      if (cdn_hosts.any (fun h => strContains lower h)) &&
         (strContains lower "/attachments/" ||
          media_exts.any (fun e => pyEndsWith lower e))
      then acc ++ [href] else acc) []
  if links = [] then
    node.allImgSrcs.foldl (fun acc o =>
      let src := pyStrip (o.getD "")
      if src = "" then acc
      else
        let lower := pyLower src
        if (cdn_hosts.any (fun h => strContains lower h)) &&
           strContains lower "/attachments/"
        then acc ++ [src] else acc) []
  else links

/-- The Python dedup idiom
`seen = set(); [x for x in xs if not (x in seen or seen.add(x))]`,
with the `seen` set carried explicitly. -/
def dedupSeen (seen : List String) : List String → List String
  | [] => []
  | x :: xs =>
    if x ∈ seen then dedupSeen seen xs
    else x :: dedupSeen (x :: seen) xs

/-- The attachment list before deduplication: the non-empty `href`s of the
explicit attachment anchors, extended with the CDN fallback scan when
empty (`if not attachments: attachments.extend(...)`). -/
def attachmentCandidates (node : DomNode) : List String :=
  let attachments := node.attachmentHrefs.foldl (fun acc o =>
    match o with
    | some href => if href = "" then acc else acc ++ [href]
    | none => acc) []
  if attachments = [] then attachments ++ extract_cdn_links node
  else attachments

/-- `DiscordParser._extract_attachments`: collect candidates, then
deduplicate preserving first-seen order (`if attachments:` guard kept). -/
def extract_attachments (node : DomNode) : List String :=
  let attachments := attachmentCandidates node
  if attachments = [] then attachments else dedupSeen [] attachments

/-- The synthesized "[附件 N 个]" placeholder. -/
def attachmentPlaceholder (n : Nat) : String :=
  "[附件 " ++ toString n ++ " 个]"

/-- `DiscordParser._finalize_content`: when the content equals the
unavailable placeholder or is blank, try the last non-blank `markup`
element; then, only when the (possibly replaced) content is empty or
blank, substitute the attachment-count placeholder if attachments exist. -/
def finalize_content (content : String) (attachments : List String)
    (node : DomNode) : String :=
  if content = contentUnavailable ∨ pyStrip content = "" then
    let c :=
      match node.markupTexts.getLast? with
      | some t => if pyStrip t ≠ "" then t else content
      | none => content
    if (c = "" ∨ pyStrip c = "") ∧ attachments ≠ [] then
      attachmentPlaceholder attachments.length
    else c
  else content

/-- `DiscordParser.parse_message`: build the `DiscordMessage` record from
the node.  On the pure DOM model no unexpected exception occurs, so the
happy path always produces a record — in particular an absent `id`
attribute raises nothing (`get_attribute` merely returns the null value)
and the record is still returned. -/
def parse_message (node : DomNode) (channel_url channel_name : String) :
    Option DiscordMessage :=
  let message_id := node.idAttr
  let username := extract_username node
  let content := extract_content node
  let timestamp := extract_timestamp node
  let attachments := extract_attachments node
  let content := finalize_content content attachments node
  some { id := message_id, username := username, content := content,
         timestamp := timestamp, channel_url := channel_url,
         attachments := attachments, channel_name := some channel_name }

/-- The per-message delivery step of `DiscordListener.monitor_messages`:
`if msg_obj: on_new_message(msg_obj); last_message_ids[url] = msg_obj.id`.
Returns the channel cursor after handling the node. -/
def deliver_and_advance (cursor : Option String) (node : DomNode)
    (channel_url channel_name : String) : Option String :=
  match parse_message node channel_url channel_name with
  | some msg => msg.id
  | none => cursor

/-!
New-message selection (`DiscordListener.monitor_messages`, the
`if messages:` block).  Identical in both copies of the listener.
-/

/-- The scan loop
```
for message in messages:
    msg_id = message.get_attribute('id')
    if msg_id == last_message_id: found_last = True; continue
    if found_last: new_messages.append(message)
```
with the accumulator `(new_messages, found_last)` made explicit. -/
def scanNew (lastId : String) : List DomNode → List DomNode × Bool →
    List DomNode × Bool
  | [], acc => acc
  | m :: ms, acc =>
    if m.idAttr = some lastId then scanNew lastId ms (acc.1, true)
    else if acc.2 then scanNew lastId ms (acc.1 ++ [m], acc.2)
    else scanNew lastId ms acc

/-- The new-message selection of one poll round: on an empty enumeration
nothing happens (`if messages:`); a null cursor takes `[messages[-1]]`;
otherwise the scan loop runs, and when the cursor id was not found and no
newer nodes were collected, the newest node is taken iff its id differs
from the cursor. -/
def selectNew (lastId : Option String) (nodes : List DomNode) :
    List DomNode :=
  match nodes.getLast? with
  | none => []
  | some lastNode =>
    match lastId with
    | none => [lastNode]
    | some lid =>
      let r := scanNew lid nodes ([], false)
      if r.2 = false ∧ r.1 = [] then
        if lastNode.idAttr ≠ some lid then [lastNode] else []
      else r.1

/-!
Error handling and tab management of
`src/services/listener/discord_listener.py` (`monitor_messages` except
block and `switch_to_channel`).  The legacy `src/discord_listener.py`
differs here: it keeps a single error counter shared by all channels and
performs no tab unbinding; the definitions below embed the services
implementation, which the spec describes.
-/

/-- A browser tab handle (opaque to the listener). -/
abbrev Handle := Nat

/-- Dict lookup `self.channel_handles.get(url)`. -/
def lookupHandle (hs : List (String × Handle)) (url : String) :
    Option Handle :=
  (hs.find? (fun p => p.1 = url)).map (fun p => p.2)

/-- Dict assignment `self.channel_handles[url] = h` (insertion order
preserved, existing key overwritten). -/
def setHandle (hs : List (String × Handle)) (url : String) (h : Handle) :
    List (String × Handle) :=
  if hs.any (fun p => p.1 = url) then
    hs.map (fun p => if p.1 = url then (url, h) else p)
  else hs ++ [(url, h)]

/-- Dict deletion `del self.channel_handles[url]` (guarded by
`if url in self.channel_handles`). -/
def delHandle (hs : List (String × Handle)) (url : String) :
    List (String × Handle) :=
  hs.filter (fun p => p.1 ≠ url)

/-- The driver state seen by `switch_to_channel`: the set of live window
handles, the current window, and the handle a newly opened tab would
receive (`switch_to.new_window('tab')`). -/
structure Browser where
  windowHandles : List Handle
  currentHandle : Handle
  newTabHandle : Handle
deriving Repr, DecidableEq

/-- What one `switch_to_channel` call did. -/
inductive SwitchAction where
  /-- the cached handle was live and was (re)activated -/
  | reusedTab (h : Handle)
  /-- no binding existed at all: the current page was navigated -/
  | navigatedCurrent (h : Handle)
  /-- a new tab was opened, navigated and bound -/
  | openedNewTab (h : Handle)
deriving Repr, DecidableEq

/-- `DiscordListener.switch_to_channel` (services version): reuse the
cached handle when it is still among the live window handles; otherwise,
if no channel is bound yet, navigate the current page and bind it; else
open a new tab, navigate and bind it. -/
def switch_to_channel (hs : List (String × Handle)) (br : Browser)
    (url : String) : List (String × Handle) × SwitchAction :=
  match lookupHandle hs url with
  | some h =>
    if h ∈ br.windowHandles then (hs, SwitchAction.reusedTab h)
    else if hs = [] then
      (setHandle hs url br.currentHandle,
       SwitchAction.navigatedCurrent br.currentHandle)
    else
      (setHandle hs url br.newTabHandle,
       SwitchAction.openedNewTab br.newTabHandle)
  | none =>
    if hs = [] then
      (setHandle hs url br.currentHandle,
       SwitchAction.navigatedCurrent br.currentHandle)
    else
      (setHandle hs url br.newTabHandle,
       SwitchAction.openedNewTab br.newTabHandle)

/-- Mutable listener state touched by the error ladder: the per-channel
error counters (`channel_errors`) and the channel-to-tab map
(`channel_handles`). -/
structure ListenerState where
  channelErrors : String → Nat
  channelHandles : List (String × Handle)

/-- `max_errors = 5`. -/
def maxErrors : Nat := 5

/-- Outcome of the `self.driver.refresh()` attempt inside the except
block. -/
inductive RefreshResult where
  /-- refresh succeeded -/
  | ok
  /-- refresh raised but the browser is alive (`window_handles` non-empty):
  tab-local fatal error -/
  | failLocal
  /-- refresh raised and the browser is gone: session-fatal error -/
  | failFatal
deriving Repr, DecidableEq

/-- The `except` block of `monitor_messages` for one channel poll error:
increment that channel's counter; at the threshold attempt one page
reload; on success reset the counter; on tab-local failure unbind the
channel's tab and reset the counter; on session-fatal failure restart the
browser (clearing every tab binding, counters untouched).  The second
component counts the reload attempts made (0 or 1). -/
def handleChannelError (st : ListenerState) (url : String)
    (refresh : RefreshResult) : ListenerState × Nat :=
  let errs := fun u => if u = url then st.channelErrors u + 1
                       else st.channelErrors u
  if maxErrors ≤ errs url then
    match refresh with
    | RefreshResult.ok =>
      ({ st with channelErrors := fun u => if u = url then 0 else errs u },
       1)
    | RefreshResult.failLocal =>
      ({ channelErrors := fun u => if u = url then 0 else errs u,
         channelHandles := delHandle st.channelHandles url }, 1)
    | RefreshResult.failFatal =>
      ({ channelErrors := errs, channelHandles := [] }, 1)
  else ({ st with channelErrors := errs }, 0)

/-- The success epilogue of one channel poll:
`channel_errors[channel_url] = 0`. -/
def handleChannelSuccess (st : ListenerState) (url : String) :
    ListenerState :=
  { st with channelErrors := fun u => if u = url then 0
                                      else st.channelErrors u }

/-- A message node with identifier `i` and unconstrained other fields,
used as concrete witness data. -/
def mkMsg (i : String) : DomNode :=
  { idAttr := some i, headerUsername := some "alice", ariaLabel := none,
    prevSiblings := [], contentTexts := ["hi"], markupTexts := [],
    timeDatetime := none, attachmentHrefs := [], allLinkHrefs := [],
    allImgSrcs := [] }

/-!  Helper lemmas about the selection scan.  -/

theorem scanNew_append (lid : String) (xs ys : List DomNode)
    (acc : List DomNode × Bool) :
    scanNew lid (xs ++ ys) acc = scanNew lid ys (scanNew lid xs acc) := by
  induction xs generalizing acc with
  | nil => rfl
  | cons m ms ih =>
    by_cases h : m.idAttr = some lid
    · simp only [List.cons_append, scanNew, if_pos h]
      exact ih _
    · by_cases h2 : acc.2 = true
      · simp only [List.cons_append, scanNew, if_neg h, if_pos h2]
        exact ih _
      · simp only [List.cons_append, scanNew, if_neg h, if_neg h2]
        exact ih _

theorem scanNew_not_found (lid : String) (xs : List DomNode)
    (h : ∀ m ∈ xs, m.idAttr ≠ some lid) (acc1 : List DomNode) :
    scanNew lid xs (acc1, false) = (acc1, false) := by
  induction xs with
  | nil => rfl
  | cons m ms ih =>
    simp only [scanNew, if_neg (h m (List.mem_cons_self m ms))]
    exact ih (fun m' hm' => h m' (List.mem_cons_of_mem m hm'))

theorem scanNew_found (lid : String) (xs : List DomNode)
    (h : ∀ m ∈ xs, m.idAttr ≠ some lid) (acc1 : List DomNode) :
    scanNew lid xs (acc1, true) = (acc1 ++ xs, true) := by
  induction xs generalizing acc1 with
  | nil => simp [scanNew]
  | cons m ms ih =>
    simp only [scanNew, if_neg (h m (List.mem_cons_self m ms)), if_pos rfl]
    rw [ih (fun m' hm' => h m' (List.mem_cons_of_mem m hm'))]
    simp

/-- C1: when the cursor `lastId` is non-null and names exactly one node of
the current ordered node list, the new-message selection returns exactly
the nodes strictly after that node, in list order. -/
theorem select_after_cursor (lid : String) (pre post : List DomNode)
    (n : DomNode) (hn : n.idAttr = some lid)
    (hpre : ∀ m ∈ pre, m.idAttr ≠ some lid)
    (hpost : ∀ m ∈ post, m.idAttr ≠ some lid) :
    selectNew (some lid) (pre ++ n :: post) = post := by
  have hne : pre ++ n :: post ≠ [] := by simp
  have hscan : scanNew lid (pre ++ n :: post) ([], false) = (post, true) := by
    rw [scanNew_append, scanNew_not_found lid pre hpre]
    simp only [scanNew, if_pos hn]
    rw [scanNew_found lid post hpost]
    simp
  simp only [selectNew, List.getLast?_eq_getLast_of_ne_nil hne, hscan]
  simp

/-- C1 witness: cursor `msg_5` with nodes `msg_3 … msg_7` selects
`[msg_6, msg_7]` in that order. -/
theorem select_after_cursor_witness :
    selectNew (some "msg_5")
      [mkMsg "msg_3", mkMsg "msg_4", mkMsg "msg_5", mkMsg "msg_6",
       mkMsg "msg_7"] = [mkMsg "msg_6", mkMsg "msg_7"] :=
  select_after_cursor "msg_5" [mkMsg "msg_3", mkMsg "msg_4"]
    [mkMsg "msg_6", mkMsg "msg_7"] (mkMsg "msg_5") (by decide) (by decide)
    (by decide)

/-- C2: on the first poll of a channel (null cursor) with a non-empty node
list, exactly one node is selected: the newest (last) one. -/
theorem select_first_poll (nodes : List DomNode) (h : nodes ≠ []) :
    selectNew none nodes = [nodes.getLast h] := by
  simp only [selectNew, List.getLast?_eq_getLast_of_ne_nil h]

/-- C2 witness: a first poll over two visible nodes selects exactly the
newest one. -/
theorem select_first_poll_witness :
    selectNew none [mkMsg "msg_1", mkMsg "msg_2"] = [mkMsg "msg_2"] :=
  select_first_poll [mkMsg "msg_1", mkMsg "msg_2"] (by decide)

/-- C3: when the non-null cursor id occurs nowhere in the node list (so no
newer nodes were collected), the selection falls back to the single newest
node when its id differs from the cursor, and selects nothing when the
newest node's id equals the cursor. -/
theorem select_cursor_lost (lid : String) (nodes : List DomNode)
    (h : nodes ≠ []) (habs : ∀ m ∈ nodes, m.idAttr ≠ some lid) :
    ((nodes.getLast h).idAttr ≠ some lid →
      selectNew (some lid) nodes = [nodes.getLast h]) ∧
    ((nodes.getLast h).idAttr = some lid →
      selectNew (some lid) nodes = []) := by
  constructor
  · intro hdiff
    have hscan := scanNew_not_found lid nodes habs []
    simp only [selectNew, List.getLast?_eq_getLast_of_ne_nil h, hscan]
    simp [hdiff]
  · intro heq
    exact absurd heq (habs _ (List.getLast_mem h))

/-- C3 witness: cursor `msg_old` absent from `[msg_9, msg_10]` selects
exactly `[msg_10]`. -/
theorem select_cursor_lost_witness :
    selectNew (some "msg_old") [mkMsg "msg_9", mkMsg "msg_10"] =
      [mkMsg "msg_10"] :=
  (select_cursor_lost "msg_old" [mkMsg "msg_9", mkMsg "msg_10"]
    (by decide) (by decide)).1 (by decide)

/-!  Helper lemmas about the first-occurrence dedup.  -/

theorem mem_dedupSeen {seen l : List String} {x : String}
    (h : x ∈ dedupSeen seen l) : x ∈ l ∧ x ∉ seen := by
  induction l generalizing seen with
  | nil => simp [dedupSeen] at h
  | cons y ys ih =>
    simp only [dedupSeen] at h
    by_cases hy : y ∈ seen
    · rw [if_pos hy] at h
      have := ih h
      exact ⟨List.mem_cons_of_mem y this.1, this.2⟩
    · rw [if_neg hy] at h
      rcases List.mem_cons.mp h with rfl | h'
      · exact ⟨List.mem_cons_self x ys, hy⟩
      · have := ih h'
        exact ⟨List.mem_cons_of_mem y this.1,
               fun hs => this.2 (List.mem_cons_of_mem y hs)⟩

theorem nodup_dedupSeen (l : List String) :
    ∀ seen, (dedupSeen seen l).Nodup := by
  induction l with
  | nil => intro seen; simp [dedupSeen]
  | cons y ys ih =>
    intro seen
    simp only [dedupSeen]
    by_cases hy : y ∈ seen
    · rw [if_pos hy]; exact ih seen
    · rw [if_neg hy]
      refine List.nodup_cons.mpr ⟨fun hmem => ?_, ih (y :: seen)⟩
      exact (mem_dedupSeen hmem).2 (List.mem_cons_self y seen)

theorem pairwise_firstIndex_dedupSeen (l : List String) :
    ∀ seen, List.Pairwise
      (fun a b => List.indexOf a l < List.indexOf b l)
      (dedupSeen seen l) := by
  induction l with
  | nil => intro seen; simp [dedupSeen]
  | cons y ys ih =>
    intro seen
    simp only [dedupSeen]
    by_cases hy : y ∈ seen
    · rw [if_pos hy]
      refine (ih seen).imp_of_mem ?_
      intro a b ha hb hab
      have hay : a ≠ y := fun e => (mem_dedupSeen ha).2 (e ▸ hy)
      have hby : b ≠ y := fun e => (mem_dedupSeen hb).2 (e ▸ hy)
      rw [List.indexOf_cons_ne ys hay.symm, List.indexOf_cons_ne ys hby.symm]
      omega
    · rw [if_neg hy]
      refine List.pairwise_cons.mpr ⟨fun b hb => ?_, ?_⟩
      · have hby : b ≠ y :=
          fun e => (mem_dedupSeen hb).2 (e ▸ List.mem_cons_self y seen)
        rw [List.indexOf_cons_self, List.indexOf_cons_ne ys hby.symm]
        omega
      · refine (ih (y :: seen)).imp_of_mem ?_
        intro a b ha hb hab
        have hay : a ≠ y :=
          fun e => (mem_dedupSeen ha).2 (e ▸ List.mem_cons_self y seen)
        have hby : b ≠ y :=
          fun e => (mem_dedupSeen hb).2 (e ▸ List.mem_cons_self y seen)
        rw [List.indexOf_cons_ne ys hay.symm, List.indexOf_cons_ne ys hby.symm]
        omega

/-- C7: for every message node, the extracted attachment list contains no
duplicate URL, and the retained entries are ordered by the first
appearance of each URL among the collected candidates. -/
theorem attachments_nodup_first_seen_order (node : DomNode) :
    (extract_attachments node).Nodup ∧
    List.Pairwise
      (fun a b => List.indexOf a (attachmentCandidates node) <
                  List.indexOf b (attachmentCandidates node))
      (extract_attachments node) := by
  unfold extract_attachments
  by_cases h : attachmentCandidates node = []
  · simp [h]
  · rw [if_neg h]
    exact ⟨nodup_dedupSeen _ [], pairwise_firstIndex_dedupSeen _ []⟩

/-!  Helper lemmas about the sibling-lookback author fallback.  -/

/-- The probe applied to each sibling in the lookback loop: its non-empty
header username text, when it has one. -/
def sibProbe (o : Option String) : Option String :=
  match o with
  | some t => if t ≠ "" then some t else none
  | none => none

theorem trace_back_username_eq_findSome (prevSibs : List (Option String)) :
    trace_back_username prevSibs =
      ((prevSibs.drop (prevSibs.length - 8)).reverse).findSome? sibProbe :=
  rfl

theorem sibProbe_eq_none {o : Option String} (h : o.getD "" = "") :
    sibProbe o = none := by
  cases o with
  | none => rfl
  | some t =>
    simp only [Option.getD_some] at h
    simp [sibProbe, h]

theorem trace_back_username_nearest (pre post : List (Option String))
    (u : String) (hu : u ≠ "") (hlen : post.length < 8)
    (hpost : ∀ o ∈ post, o.getD "" = "") :
    trace_back_username (pre ++ some u :: post) = some u := by
  rw [trace_back_username_eq_findSome]
  have hk : (pre ++ some u :: post).length - 8 ≤ pre.length := by
    simp only [List.length_append, List.length_cons]
    omega
  rw [List.drop_append_eq_append_drop,
      Nat.sub_eq_zero_of_le hk, List.drop_zero, List.reverse_append,
      List.reverse_cons, List.findSome?_append, List.findSome?_append]
  have hnone : post.reverse.findSome? sibProbe = none := by
    rw [List.findSome?_eq_none_iff]
    intro o ho
    exact sibProbe_eq_none (hpost o (List.mem_reverse.mp ho))
  rw [hnone]
  have hprobe : sibProbe (some u) = some u := by simp [sibProbe, hu]
  simp [hprobe]

theorem trace_back_username_none (prevSibs : List (Option String))
    (h : ∀ o ∈ prevSibs, o.getD "" = "") :
    trace_back_username prevSibs = none := by
  rw [trace_back_username_eq_findSome, List.findSome?_eq_none_iff]
  intro o ho
  have : o ∈ prevSibs :=
    List.drop_subset _ _ (List.mem_reverse.mp ho)
  exact sibProbe_eq_none (h o this)

/-- C8: for a node without a structured username header, the extracted
author is (a) the username of the nearest preceding sibling carrying an
explicit author within the lookback window of 8, else (b) the leading
segment of the node's accessibility label, else (c) the literal
placeholder "未知用户". -/
theorem author_fallback_chain :
    (∀ (node : DomNode) (pre post : List (Option String)) (u : String),
        node.headerUsername = none →
        node.prevSiblings = pre ++ some u :: post →
        u ≠ "" → post.length < 8 →
        (∀ o ∈ post, o.getD "" = "") →
        extract_username node = u) ∧
    (∀ (node : DomNode) (s : String),
        node.headerUsername = none →
        (∀ o ∈ node.prevSiblings, o.getD "" = "") →
        node.ariaLabel = some s → s ≠ "" → ariaLeading s ≠ "" →
        extract_username node = ariaLeading s) ∧
    (∀ (node : DomNode),
        node.headerUsername = none →
        (∀ o ∈ node.prevSiblings, o.getD "" = "") →
        (∀ s, node.ariaLabel = some s → ariaLeading s = "") →
        extract_username node = unknownUser) := by
  refine ⟨?_, ?_, ?_⟩
  · intro node pre post u hh hsib hu hlen hpost
    rw [extract_username, hh, hsib,
        trace_back_username_nearest pre post u hu hlen hpost]
  · intro node s hh hsib haria hs hlead
    simp [extract_username, hh, trace_back_username_none _ hsib,
          extract_username_from_aria, haria, hs, hlead]
  · intro node hh hsib haria
    cases ha : node.ariaLabel with
    | none =>
      simp [extract_username, hh, trace_back_username_none _ hsib,
            extract_username_from_aria, ha]
    | some s =>
      by_cases hs : s = ""
      · simp [extract_username, hh, trace_back_username_none _ hsib,
              extract_username_from_aria, ha, hs]
      · simp [extract_username, hh, trace_back_username_none _ hsib,
              extract_username_from_aria, ha, hs, haria s ha]

/-- C8 witness: a node with no header username whose nearest
author-carrying preceding sibling (within the window of 8) says "Alice"
yields author "Alice". -/
theorem author_fallback_chain_witness :
    extract_username
      { idAttr := some "chat-messages-9", headerUsername := none,
        ariaLabel := none, prevSiblings := [some "Alice", none],
        contentTexts := ["hi"], markupTexts := [], timeDatetime := none,
        attachmentHrefs := [], allLinkHrefs := [], allImgSrcs := [] } =
      "Alice" :=
  author_fallback_chain.1
    { idAttr := some "chat-messages-9", headerUsername := none,
      ariaLabel := none, prevSiblings := [some "Alice", none],
      contentTexts := ["hi"], markupTexts := [], timeDatetime := none,
      attachmentHrefs := [], allLinkHrefs := [], allImgSrcs := [] }
    [] [none] "Alice" rfl rfl (by decide) (by decide) (by decide)

/-- C10: when the structured username header element is present but its
text is the empty string, the extracted author is the empty string — the
sibling, aria-label and placeholder fallbacks are never consulted. -/
theorem empty_header_username_kept (node : DomNode)
    (h : node.headerUsername = some "") :
    extract_username node = "" := by
  rw [extract_username, h]

/-- C10 witness: an empty header text yields author "" even though a
sibling author and an aria label are available. -/
theorem empty_header_username_kept_witness :
    extract_username
      { idAttr := some "chat-messages-9", headerUsername := some "",
        ariaLabel := some "Bob, 10:00", prevSiblings := [some "Alice"],
        contentTexts := ["hi"], markupTexts := [], timeDatetime := none,
        attachmentHrefs := [], allLinkHrefs := [], allImgSrcs := [] } =
      "" :=
  empty_header_username_kept
    { idAttr := some "chat-messages-9", headerUsername := some "",
      ariaLabel := some "Bob, 10:00", prevSiblings := [some "Alice"],
      contentTexts := ["hi"], markupTexts := [], timeDatetime := none,
      attachmentHrefs := [], allLinkHrefs := [], allImgSrcs := [] }
    rfl

/-- A message node whose stable identifier attribute is absent (otherwise
fully extractable). -/
def noIdNode : DomNode :=
  { idAttr := none, headerUsername := some "alice",
    ariaLabel := none, prevSiblings := [], contentTexts := ["hello"],
    markupTexts := [], timeDatetime := none, attachmentHrefs := [],
    allLinkHrefs := [], allImgSrcs := [] }

/-- C4 counterexample: on a node without an identifier attribute the
extractor still returns a message record (it does not fail), and the
channel cursor does not stay where it was — `last_message_ids[url]` is
overwritten with the null identifier. -/
theorem missing_id_not_skipped :
    (parse_message noIdNode "https://discord.com/channels/1/2" "频道2").isSome
      = true ∧
    deliver_and_advance (some "chat-messages-42") noIdNode
      "https://discord.com/channels/1/2" "频道2" ≠
      some "chat-messages-42" := by
  exact ⟨rfl, by decide⟩

/-- C4 amended: a node whose identifier attribute is absent is still
extracted — `get_attribute('id')` returns the null value without raising,
the record is built with a null `id`, the node is delivered, and the
channel cursor is set to that null identifier (so the channel behaves as
never-polled on the next round). -/
theorem missing_id_extracted_and_cursor_nulled (node : DomNode)
    (url nm : String) (cursor : Option String) (h : node.idAttr = none) :
    (∃ msg, parse_message node url nm = some msg ∧ msg.id = none) ∧
    deliver_and_advance cursor node url nm = none := by
  refine ⟨⟨_, rfl, ?_⟩, ?_⟩
  · simpa [parse_message] using h
  · simp [deliver_and_advance, parse_message, h]

/-- C4 amended witness: the concrete identifier-less node is extracted and
the cursor becomes null. -/
theorem missing_id_extracted_witness :
    (∃ msg, parse_message noIdNode "https://discord.com/channels/1/2"
        "频道2" = some msg ∧ msg.id = none) ∧
    deliver_and_advance (some "chat-messages-42") noIdNode
      "https://discord.com/channels/1/2" "频道2" = none :=
  missing_id_extracted_and_cursor_nulled noIdNode
    "https://discord.com/channels/1/2" "频道2" (some "chat-messages-42") rfl

/-- A message node with zero `messageContent` elements, zero `markup`
elements and one attachment anchor. -/
def attachmentOnlyNode : DomNode :=
  { idAttr := some "chat-messages-7", headerUsername := some "alice",
    ariaLabel := none, prevSiblings := [], contentTexts := [],
    markupTexts := [], timeDatetime := none,
    attachmentHrefs := [some "https://cdn.discordapp.com/attachments/1/2/a.png"],
    allLinkHrefs := [], allImgSrcs := [] }

/-- C5 evaluation at the failing input: a node with no content elements,
no markup elements and one extracted attachment yields the literal
"[无法获取消息内容]" placeholder, not the synthesized "[附件 1 个]"
placeholder — the synthesized branch tests only for empty/blank content
and never fires on the unavailable placeholder. -/
theorem no_content_with_attachment_eval :
    (parse_message attachmentOnlyNode "u" "c").map (fun m => m.attachments)
      = some ["https://cdn.discordapp.com/attachments/1/2/a.png"] ∧
    (parse_message attachmentOnlyNode "u" "c").map (fun m => m.content)
      = some contentUnavailable ∧
    (parse_message attachmentOnlyNode "u" "c").map (fun m => m.content)
      ≠ some (attachmentPlaceholder 1) := by
  refine ⟨by decide, by decide, by decide⟩

/-!  Helper lemmas about the error ladder and the tab map.  -/

theorem lookupHandle_delHandle (hs : List (String × Handle)) (url : String) :
    lookupHandle (delHandle hs url) url = none := by
  have hfind : List.find? (fun p => decide (p.1 = url)) (delHandle hs url)
      = none := by
    rw [List.find?_eq_none]
    intro p hp
    have := (List.mem_filter.mp hp).2
    simpa using this
  simp [lookupHandle, delHandle] at hfind ⊢


theorem handleChannelError_errors (st : ListenerState) (url : String)
    (r : RefreshResult) (u : String) :
    (handleChannelError st url r).1.channelErrors u =
      if u = url then
        (if maxErrors ≤ st.channelErrors url + 1 then
          match r with
          | RefreshResult.failFatal => st.channelErrors url + 1
          | _ => 0
         else st.channelErrors url + 1)
      else st.channelErrors u := by
  by_cases hu : u = url
  · subst hu
    by_cases h5 : maxErrors ≤ st.channelErrors u + 1
    · cases r <;> simp [handleChannelError, h5]
    · simp [handleChannelError, h5]
  · by_cases h5 : maxErrors ≤ st.channelErrors url + 1
    · cases r <;> simp [handleChannelError, h5, hu]
    · simp [handleChannelError, h5, hu]

theorem handleChannelError_reloads (st : ListenerState) (url : String)
    (r : RefreshResult) :
    (handleChannelError st url r).2 =
      if maxErrors ≤ st.channelErrors url + 1 then 1 else 0 := by
  by_cases h5 : maxErrors ≤ st.channelErrors url + 1
  · cases r <;> simp [handleChannelError, h5]
  · simp [handleChannelError, h5]

theorem handleChannelError_handles_failLocal (st : ListenerState)
    (url : String) (h5 : maxErrors ≤ st.channelErrors url + 1) :
    (handleChannelError st url RefreshResult.failLocal).1.channelHandles =
      delHandle st.channelHandles url := by
  simp [handleChannelError, h5]

/-- C6: one channel poll error touches only that channel's counter; the
counter reaching the threshold of 5 triggers exactly one reload attempt
(below the threshold none is made and the counter just increments); and
after a successful reload the counter is reset to 0, so the next error
opens a new window at 1 with no reload attempt, not at 6. -/
theorem channel_error_isolation_and_reload (st : ListenerState)
    (url : String) (r : RefreshResult) :
    (∀ u, u ≠ url →
      (handleChannelError st url r).1.channelErrors u =
        st.channelErrors u) ∧
    ((handleChannelError st url r).2 =
      if maxErrors ≤ st.channelErrors url + 1 then 1 else 0) ∧
    (st.channelErrors url + 1 < maxErrors →
      (handleChannelError st url r).1.channelErrors url =
        st.channelErrors url + 1) ∧
    (st.channelErrors url = 4 →
      (handleChannelError st url RefreshResult.ok).1.channelErrors url = 0 ∧
      ∀ r',
        (handleChannelError (handleChannelError st url RefreshResult.ok).1
          url r').1.channelErrors url = 1 ∧
        (handleChannelError (handleChannelError st url RefreshResult.ok).1
          url r').2 = 0) := by
  refine ⟨?_, ?_, ?_, ?_⟩
  · intro u hu
    rw [handleChannelError_errors]
    simp [hu]
  · exact handleChannelError_reloads st url r
  · intro hlt
    rw [handleChannelError_errors]
    rw [if_pos rfl, if_neg (by omega)]
  · intro h4
    have hstep : (handleChannelError st url RefreshResult.ok).1.channelErrors
        url = 0 := by
      rw [handleChannelError_errors]
      rw [if_pos rfl, if_pos (by simp [h4, maxErrors])]
    refine ⟨hstep, fun r' => ?_⟩
    constructor
    · rw [handleChannelError_errors]
      rw [if_pos rfl, if_neg (by simp [hstep, maxErrors]), hstep]
    · rw [handleChannelError_reloads]
      rw [if_neg (by simp [hstep, maxErrors])]

/-- A concrete listener state: channel "a" at 4 consecutive errors,
channel "b" at 2, both bound to tabs. -/
def stTwo : ListenerState :=
  { channelErrors := fun u => if u = "a" then 4 else 2,
    channelHandles := [("a", 1), ("b", 2)] }

/-- C6 witness: on the concrete two-channel state, an error on "a" leaves
"b" at 2, the fifth error triggers exactly one reload attempt, and after
the successful reload the next error on "a" counts 1 with no reload. -/
theorem channel_error_isolation_witness :
    (handleChannelError stTwo "a" RefreshResult.ok).1.channelErrors "b" = 2 ∧
    (handleChannelError stTwo "a" RefreshResult.ok).2 = 1 ∧
    (handleChannelError (handleChannelError stTwo "a" RefreshResult.ok).1
      "a" RefreshResult.ok).1.channelErrors "a" = 1 ∧
    (handleChannelError (handleChannelError stTwo "a" RefreshResult.ok).1
      "a" RefreshResult.ok).2 = 0 := by
  refine ⟨(channel_error_isolation_and_reload stTwo "a" RefreshResult.ok).1
    "b" (by decide), ?_, ?_, ?_⟩
  · have h :=
      (channel_error_isolation_and_reload stTwo "a" RefreshResult.ok).2.1
    rw [h]; decide
  · exact (((channel_error_isolation_and_reload stTwo "a"
      RefreshResult.ok).2.2.2 (by decide)).2 RefreshResult.ok).1
  · exact (((channel_error_isolation_and_reload stTwo "a"
      RefreshResult.ok).2.2.2 (by decide)).2 RefreshResult.ok).2

/-- C9: after a tab-local fatal error at the reload threshold (reload
failed, browser still alive), the channel's binding is gone from the
channel-to-handle map and its error counter is 0; the next
`switch_to_channel` call for it cannot reuse any cached handle, and opens
a fresh tab whenever any binding remains in the map. -/
theorem tab_local_fatal_unbinds (st : ListenerState) (url : String)
    (br : Browser) (h5 : maxErrors ≤ st.channelErrors url + 1) :
    lookupHandle
      (handleChannelError st url RefreshResult.failLocal).1.channelHandles
      url = none ∧
    (handleChannelError st url RefreshResult.failLocal).1.channelErrors
      url = 0 ∧
    (∀ h, (switch_to_channel
        (handleChannelError st url RefreshResult.failLocal).1.channelHandles
        br url).2 ≠ SwitchAction.reusedTab h) ∧
    ((handleChannelError st url RefreshResult.failLocal).1.channelHandles
        ≠ [] →
      (switch_to_channel
        (handleChannelError st url RefreshResult.failLocal).1.channelHandles
        br url).2 = SwitchAction.openedNewTab br.newTabHandle) := by
  have hdel := handleChannelError_handles_failLocal st url h5
  have hlook : lookupHandle
      (handleChannelError st url RefreshResult.failLocal).1.channelHandles
      url = none := by
    rw [hdel]; exact lookupHandle_delHandle st.channelHandles url
  refine ⟨hlook, ?_, ?_, ?_⟩
  · rw [handleChannelError_errors]
    rw [if_pos rfl, if_pos h5]
  · intro h
    simp only [switch_to_channel, hlook]
    by_cases hemp :
        (handleChannelError st url RefreshResult.failLocal).1.channelHandles
          = []
    · simp [hemp]
    · simp [hemp]
  · intro hne
    simp only [switch_to_channel, hlook]
    simp [hne]

/-- C9 witness: on the concrete two-channel state, a tab-local fatal
error on "a" (at the threshold) unbinds "a", zeroes its counter, and the
next activation opens the fresh tab handle 7 rather than reusing any
cached handle. -/
theorem tab_local_fatal_unbinds_witness :
    lookupHandle
      (handleChannelError stTwo "a" RefreshResult.failLocal).1.channelHandles
      "a" = none ∧
    (handleChannelError stTwo "a" RefreshResult.failLocal).1.channelErrors
      "a" = 0 ∧
    (switch_to_channel
      (handleChannelError stTwo "a" RefreshResult.failLocal).1.channelHandles
      { windowHandles := [2], currentHandle := 2, newTabHandle := 7 }
      "a").2 = SwitchAction.openedNewTab 7 := by
  refine ⟨(tab_local_fatal_unbinds stTwo "a"
      { windowHandles := [2], currentHandle := 2, newTabHandle := 7 }
      (by decide)).1,
    (tab_local_fatal_unbinds stTwo "a"
      { windowHandles := [2], currentHandle := 2, newTabHandle := 7 }
      (by decide)).2.1,
    (tab_local_fatal_unbinds stTwo "a"
      { windowHandles := [2], currentHandle := 2, newTabHandle := 7 }
      (by decide)).2.2.2 (by decide)⟩
